import Mathlib

/-!
Verification development for the nss-crawler repository.

Each Python module relevant to the verified claims is shallowly embedded:
pure logic becomes Lean functions, filesystem / network / clock effects
become explicit environment records, and the SQLite database becomes an
explicit state value.  Python strings are modelled at the code-point level
(`List Char` under `String`), machine-level details (UTF-8 byte layout)
are irrelevant to the verified properties.
-/

/-! ## Models of the Python `str` operations used by the sources -/

/-- Model of Python single-character `str.replace(a, b)` at code-point level. -/
def pyReplaceChar (a b : Char) (s : List Char) : List Char :=
  s.map (fun c => if c = a then b else c)

/-- Model of Python `str.lower()` (faithful on the ASCII range). -/
def pyLower (s : String) : String :=
  String.mk (s.data.map Char.toLower)

/-- Model of Python `str.upper()` (faithful on the ASCII range). -/
def pyUpper (s : String) : String :=
  String.mk (s.data.map Char.toUpper)

/-- Code-point-level substring test: model of Python `needle in hay`. -/
def pyIsInfix (needle : List Char) : List Char → Bool
  | [] => needle.isPrefixOf []
  | c :: rest => needle.isPrefixOf (c :: rest) || pyIsInfix needle rest

/-- Model of Python `needle in hay` on strings. -/
def pyIn (needle hay : String) : Bool :=
  pyIsInfix needle.data hay.data

/-- Model of Python `sep.join(groups)` for a single-character separator. -/
def pyJoinChar (c : Char) : List (List Char) → List Char
  | [] => []
  | [g] => g
  | g :: gs => g ++ c :: pyJoinChar c gs

/-- Splitting a code-point list at every position satisfying `p`:
model of Python `str.split(sep)` (which keeps empty groups). -/
def pySplitPred (p : Char → Bool) : List Char → List (List Char)
  | [] => [[]]
  | x :: xs =>
    if p x then [] :: pySplitPred p xs
    else
      match pySplitPred p xs with
      | [] => [[x]]
      | g :: gs => (x :: g) :: gs

/-- Model of Python `str.split(',')`. -/
def pySplitComma (s : String) : List String :=
  (pySplitPred (fun x => x == ',') s.data).map String.mk

/-- Model of Python no-argument `str.split()` (whitespace runs, empties dropped). -/
def pySplitWhitespace (s : String) : List String :=
  ((pySplitPred (fun ch => ch.isWhitespace) s.data).map String.mk).filter
    (fun w => w ≠ "")

/-- Model of Python `str.strip()`: drop leading and trailing whitespace
(faithful on ASCII whitespace). -/
def pyStrip (s : String) : String :=
  String.mk
    (((s.data.dropWhile Char.isWhitespace).reverse.dropWhile
      Char.isWhitespace).reverse)

/-- Model of Python `len` on a string (number of code points). -/
def pyLen (s : String) : Nat := s.data.length

/-! ## config.py -/

def MAX_RETRIES : Nat := 3

def RETRY_DELAY : Nat := 2

def PDF_STORAGE_PATH : String := "data/pdf"

def PDF_OCR_PATH : String := "data/pdf_ocr"

/-! ## models.py : the `Decision` dataclass

`datetime` values are abstracted by `Nat`: `isoformat` is injective and
`fromisoformat` inverts it, so the serialized form is represented by the
value itself wherever that round trip occurs. -/

structure Decision where
  ecli : String
  title : String
  date : Option Nat := none
  url : Option String := none
  pdf_path : Option String := none
  ocr_pdf_path : Option String := none
  full_text : Option String := none
  keywords : List String := []
  metadata : List (String × String) := []
deriving DecidableEq

/-! ## main.py : `NSSCrawler._search_phase` deduplication

The Python code inserts each decision into a dict keyed by `ecli` only when
the key is absent, then takes `list(unique_decisions.values())`; Python
dicts preserve insertion order, so this is first-seen-wins in invocation
order.  `dedupGo` carries the dict contents as an ordered association list. -/

def dedupGo : List Decision → List Decision → List Decision
  | [], acc => acc
  | d :: rest, acc =>
    if acc.any (fun x => x.ecli == d.ecli) then dedupGo rest acc
    else dedupGo rest (acc ++ [d])

/-- Model of the dedup step of `NSSCrawler._search_phase` (main.py:129-134). -/
def dedupByEcli (ds : List Decision) : List Decision :=
  dedupGo ds []

theorem dedupGo_find? (e : String) :
    ∀ (rest acc : List Decision),
      (dedupGo rest acc).find? (fun x => x.ecli == e)
        = (acc.find? (fun x => x.ecli == e)).or (rest.find? (fun x => x.ecli == e))
  | [], acc => by simp [dedupGo]
  | d :: rest, acc => by
    by_cases h : acc.any (fun x => x.ecli == d.ecli)
    · rw [dedupGo, if_pos h, dedupGo_find? e rest acc]
      by_cases hd : (d.ecli == e) = true
      · have he : d.ecli = e := beq_iff_eq.mp hd
        obtain ⟨x, hx, hxe⟩ := List.any_eq_true.mp h
        have hfind : (acc.find? (fun x => x.ecli == e)).isSome :=
          List.find?_isSome.mpr ⟨x, hx, by rw [← he]; exact hxe⟩
        obtain ⟨v, hv⟩ := Option.isSome_iff_exists.mp hfind
        rw [hv, Option.or_some, Option.or_some]
      · have hd' : (d.ecli == e) = false := by simpa using hd
        simp [List.find?_cons, hd']
    · rw [dedupGo, if_neg h, dedupGo_find? e rest (acc ++ [d]),
        List.find?_append, Option.or_assoc]
      congr 1
      by_cases hd : (d.ecli == e) = true
      · simp [List.find?_cons, hd]
      · have hd' : (d.ecli == e) = false := by simpa using hd
        simp [List.find?_cons, hd']

theorem dedupGo_nodup : ∀ (rest acc : List Decision),
    (acc.map (fun d => d.ecli)).Nodup →
      ((dedupGo rest acc).map (fun d => d.ecli)).Nodup
  | [], _, h => by simpa [dedupGo] using h
  | d :: rest, acc, h => by
    by_cases hany : acc.any (fun x => x.ecli == d.ecli)
    · rw [dedupGo, if_pos hany]
      exact dedupGo_nodup rest acc h
    · rw [dedupGo, if_neg hany]
      apply dedupGo_nodup rest (acc ++ [d])
      rw [List.map_append, List.nodup_append]
      refine ⟨h, by simp, ?_⟩
      intro a ha
      simp only [List.map_cons, List.map_nil, List.mem_singleton]
      intro hae
      apply hany
      rw [List.any_eq_true]
      obtain ⟨x, hx, hxe⟩ := List.mem_map.mp ha
      exact ⟨x, hx, by rw [beq_iff_eq, hxe, hae]⟩

theorem dedupGo_sublist : ∀ (rest acc : List Decision),
    ∃ t, dedupGo rest acc = acc ++ t ∧ t.Sublist rest
  | [], acc => ⟨[], by simp [dedupGo], List.nil_sublist []⟩
  | d :: rest, acc => by
    by_cases hany : acc.any (fun x => x.ecli == d.ecli)
    · obtain ⟨t, ht, hs⟩ := dedupGo_sublist rest acc
      refine ⟨t, ?_, hs.trans (List.sublist_cons_self d rest)⟩
      rw [dedupGo, if_pos hany]
      exact ht
    · obtain ⟨t, ht, hs⟩ := dedupGo_sublist rest (acc ++ [d])
      refine ⟨d :: t, ?_, hs.cons₂ d⟩
      rw [dedupGo, if_neg hany, ht, List.append_assoc, List.singleton_append]

/-- Adapter outputs of the spec scenario: A and B share identifier 1, C has 2. -/
def mockA : Decision := { ecli := "1", title := "A" }

def mockB : Decision := { ecli := "1", title := "B" }

def mockC : Decision := { ecli := "2", title := "C" }

/-- Claim C3: the merged output of the search phase contains exactly one
record per distinct identifier, namely the first-encountered record with
that identifier in source-invocation order, in insertion order of first
appearance; in particular adapter outputs [A(id=1), B(id=1), C(id=2)]
produce [A(id=1), C(id=2)] of size 2. -/
theorem search_phase_dedup_first_seen (ds : List Decision) (e : String) :
    ((dedupByEcli ds).map (fun d => d.ecli)).Nodup
    ∧ (dedupByEcli ds).find? (fun x => x.ecli == e) = ds.find? (fun x => x.ecli == e)
    ∧ (dedupByEcli ds).Sublist ds
    ∧ dedupByEcli [mockA, mockB, mockC] = [mockA, mockC]
    ∧ (dedupByEcli [mockA, mockB, mockC]).length = 2 := by
  refine ⟨dedupGo_nodup ds [] (by simp), ?_, ?_, by decide, by decide⟩
  · rw [dedupByEcli, dedupGo_find? e ds []]
    simp
  · obtain ⟨t, ht, hs⟩ := dedupGo_sublist ds []
    rw [dedupByEcli, ht]
    simpa using hs

/-! ## storage.py : SQLite store (`decisions` table) plus FTS5 index

`save_decision` executes `INSERT OR REPLACE INTO decisions ...` where
`ecli` carries a UNIQUE constraint, and `_init_database` installed
AFTER INSERT / AFTER DELETE / AFTER UPDATE triggers mirroring changes
into `decisions_fts`.  SQLite semantics embedded here:

* `INSERT OR REPLACE` first deletes every row conflicting on the UNIQUE
  `ecli` column, then inserts a fresh row with a fresh autoincrement id.
* Per the SQLite documentation, rows deleted by the REPLACE conflict
  resolution fire delete triggers only when `PRAGMA recursive_triggers`
  is on; Python's sqlite3 leaves it at its default (off), so the
  `decisions_ad` trigger does not fire for the implicit delete.
* The insert fires the `decisions_ai` trigger, appending an FTS entry
  keyed by the new rowid.
* No plain `UPDATE` statement is ever issued, so `decisions_au` never fires.

The `date` TEXT column stores `decision.date.isoformat()`;
`datetime.fromisoformat` inverts `isoformat`, so the column content is
represented by the abstracted datetime value itself. -/

structure DBRow where
  id : Nat
  ecli : String
  title : String
  date : Option Nat
  url : Option String
  pdf_path : Option String
  ocr_pdf_path : Option String
  full_text : Option String
  keywords : String
  updated_at : Nat
deriving DecidableEq

structure FtsRow where
  rowid : Nat
  ecli : String
  title : String
  full_text : Option String
deriving DecidableEq

structure DBState where
  rows : List DBRow
  fts : List FtsRow
  nextId : Nat
deriving DecidableEq

/-- A freshly initialised database (autoincrement ids start at 1). -/
def initState : DBState := ⟨[], [], 1⟩

/-- `",".join(decision.keywords) if decision.keywords else ""` (storage.py:109). -/
def encodeKeywords (l : List String) : String :=
  String.mk (pyJoinChar ',' (l.map String.data))

/-- `row['keywords'].split(',') if row['keywords'] else []` (storage.py:256). -/
def decodeKeywords (s : String) : List String :=
  if s = "" then [] else pySplitComma s

/-- Model of `DecisionStorage.save_decision` (storage.py:95-135); `now` is
the `datetime.now()` written into `updated_at`. -/
def save_decision (st : DBState) (d : Decision) (now : Nat) : DBState :=
  let newRow : DBRow :=
    { id := st.nextId, ecli := d.ecli, title := d.title, date := d.date,
      url := d.url, pdf_path := d.pdf_path, ocr_pdf_path := d.ocr_pdf_path,
      full_text := d.full_text, keywords := encodeKeywords d.keywords,
      updated_at := now }
  { rows := st.rows.filter (fun r => !(r.ecli == d.ecli)) ++ [newRow]
    fts := st.fts ++
      [{ rowid := st.nextId, ecli := d.ecli, title := d.title,
         full_text := d.full_text }]
    nextId := st.nextId + 1 }

/-- Model of `DecisionStorage._row_to_decision` (storage.py:245-267). -/
def row_to_decision (r : DBRow) : Decision :=
  { ecli := r.ecli, title := r.title, date := r.date, url := r.url,
    pdf_path := r.pdf_path, ocr_pdf_path := r.ocr_pdf_path,
    full_text := r.full_text, keywords := decodeKeywords r.keywords,
    metadata := [] }

/-- Model of `DecisionStorage.get_decision` (storage.py:155-171). -/
def get_decision (st : DBState) (e : String) : Option Decision :=
  (st.rows.find? (fun r => r.ecli == e)).map row_to_decision

theorem pySplitPred_ne_nil (p : Char → Bool) : ∀ l, pySplitPred p l ≠ []
  | [] => by simp [pySplitPred]
  | x :: xs => by
    rw [pySplitPred]
    by_cases h : p x
    · simp [h]
    · simp only [h]
      cases hs : pySplitPred p xs with
      | nil => simp
      | cons g gs => simp [if_neg h, hs]

theorem pySplitPred_no_sep (p : Char → Bool) :
    ∀ g, (∀ a ∈ g, p a = false) → pySplitPred p g = [g]
  | [], _ => rfl
  | x :: xs, h => by
    have hx : p x = false := h x (by simp)
    rw [pySplitPred, if_neg (by simp [hx]),
      pySplitPred_no_sep p xs (fun a ha => h a (by simp [ha]))]

theorem pySplitPred_append_sep (p : Char → Bool) (c : Char) (hc : p c = true) :
    ∀ g t, (∀ a ∈ g, p a = false) →
      pySplitPred p (g ++ c :: t) = g :: pySplitPred p t
  | [], t, _ => by simp [pySplitPred, hc]
  | x :: xs, t, h => by
    have hx : p x = false := h x (by simp)
    rw [List.cons_append, pySplitPred, if_neg (by simp [hx]),
      pySplitPred_append_sep p c hc xs t (fun a ha => h a (by simp [ha]))]

theorem pyJoinChar_cons_cons (c : Char) (g g' : List Char) (gs : List (List Char)) :
    pyJoinChar c (g :: g' :: gs) = g ++ c :: pyJoinChar c (g' :: gs) := rfl

theorem pySplitPred_pyJoinChar (p : Char → Bool) (c : Char) (hc : p c = true) :
    ∀ gs, gs ≠ [] → (∀ g ∈ gs, ∀ a ∈ g, p a = false) →
      pySplitPred p (pyJoinChar c gs) = gs
  | [], h, _ => absurd rfl h
  | [g], _, hg => by
    rw [pyJoinChar, pySplitPred_no_sep p g (hg g (by simp))]
  | g :: g' :: gs, _, hg => by
    rw [pyJoinChar_cons_cons,
      pySplitPred_append_sep p c hc g (pyJoinChar c (g' :: gs)) (hg g (by simp)),
      pySplitPred_pyJoinChar p c hc (g' :: gs) (by simp)
        (fun x hx a ha => hg x (by simp [hx]) a ha)]

theorem pyJoinChar_eq_nil (c : Char) :
    ∀ gs, pyJoinChar c gs = [] → gs = [] ∨ gs = [[]]
  | [], _ => Or.inl rfl
  | [g], h => by
    rw [pyJoinChar] at h
    subst h
    exact Or.inr rfl
  | g :: g' :: gs, h => by
    rw [pyJoinChar_cons_cons] at h
    exact absurd h (by simp)

theorem decodeKeywords_encodeKeywords (l : List String)
    (hk : ∀ k ∈ l, ',' ∉ k.data) (hne : l ≠ [""]) :
    decodeKeywords (encodeKeywords l) = l := by
  cases l with
  | nil => rfl
  | cons k ks =>
    have hj : pyJoinChar ',' ((k :: ks).map String.data) ≠ [] := by
      intro h
      rcases pyJoinChar_eq_nil ',' _ h with h' | h'
      · simp at h'
      · have : k :: ks = [""] := by
          cases ks with
          | nil =>
            simp only [List.map_cons, List.map_nil] at h'
            have : k.data = ([] : List Char) := by simpa using h'
            have : k = "" := by
              cases k
              simp_all [String.ext_iff]
            simp [this]
          | cons _ _ => simp at h'
        exact hne this
    have hmk : encodeKeywords (k :: ks) ≠ "" := by
      intro h
      apply hj
      have := congrArg String.data h
      simpa [encodeKeywords] using this
    rw [decodeKeywords, if_neg hmk, encodeKeywords, pySplitComma]
    have hd : (String.mk (pyJoinChar ',' ((k :: ks).map String.data))).data
        = pyJoinChar ',' ((k :: ks).map String.data) := rfl
    rw [hd, pySplitPred_pyJoinChar (fun x => x == ',') ',' (by simp) _ (by simp)
      (by
        intro g hg a ha
        obtain ⟨s, hs, rfl⟩ := List.mem_map.mp hg
        have := hk s hs
        simp only [beq_eq_false_iff_ne, ne_eq]
        intro h
        exact this (h ▸ ha))]
    simp only [List.map_map]
    exact List.map_id (k :: ks)

theorem find?_filter_ne_none (rows : List DBRow) (e : String) :
    (rows.filter (fun r => !(r.ecli == e))).find? (fun r => r.ecli == e) = none := by
  rw [List.find?_eq_none]
  intro x hx
  have h2 := (List.mem_filter.mp hx).2
  simp only [Bool.not_eq_true'] at h2
  simp [h2]

theorem get_decision_save (st : DBState) (d : Decision) (now : Nat) :
    get_decision (save_decision st d now) d.ecli
      = some { ecli := d.ecli, title := d.title, date := d.date, url := d.url,
               pdf_path := d.pdf_path, ocr_pdf_path := d.ocr_pdf_path,
               full_text := d.full_text,
               keywords := decodeKeywords (encodeKeywords d.keywords),
               metadata := [] } := by
  unfold get_decision save_decision
  rw [List.find?_append, find?_filter_ne_none]
  simp [row_to_decision, List.find?_cons]

/-- A decision whose keyword list contains a comma inside a keyword. -/
def commaKeywordDecision : Decision :=
  { ecli := "ECLI:CZ:NSS:2025:1", title := "T", keywords := ["a,b"] }

/-- Claim C1 counterexample: `save_decision` followed by `get_decision`
does **not** always return a record equal to the one written — a keyword
containing a comma is stored as `"a,b"` and read back as the two keywords
`["a", "b"]`. -/
theorem save_get_not_identity :
    get_decision (save_decision initState commaKeywordDecision 0)
        "ECLI:CZ:NSS:2025:1"
      ≠ some commaKeywordDecision := by decide

/-- Claim C1 (amended): for decisions whose `metadata` is empty, whose
keyword list is not `[""]` and whose keywords contain no comma (the
persisted representation is lossy otherwise), `save_decision` followed by
`get_decision` returns an equal record, and a second `save_decision` with
the same identifier replaces all fields, so `get_decision` returns the
second record in full (overwrite, not merge). -/
theorem save_get_roundtrip (st : DBState) (d d₂ : Decision) (now now₂ : Nat)
    (hm : d.metadata = []) (hk : ∀ k ∈ d.keywords, ',' ∉ k.data)
    (h1 : d.keywords ≠ [""]) (he : d₂.ecli = d.ecli) (hm₂ : d₂.metadata = [])
    (hk₂ : ∀ k ∈ d₂.keywords, ',' ∉ k.data) (h2 : d₂.keywords ≠ [""]) :
    get_decision (save_decision st d now) d.ecli = some d
    ∧ get_decision (save_decision (save_decision st d now) d₂ now₂) d.ecli
        = some d₂ := by
  constructor
  · rw [get_decision_save, decodeKeywords_encodeKeywords d.keywords hk h1]
    cases d
    simp_all
  · rw [← he, get_decision_save, decodeKeywords_encodeKeywords d₂.keywords hk₂ h2]
    cases d₂
    simp_all

def roundtripFirst : Decision :=
  { ecli := "ECLI:CZ:NSS:2025:2", title := "old title",
    full_text := some "Toto je text.", keywords := ["a", "b"] }

def roundtripSecond : Decision :=
  { ecli := "ECLI:CZ:NSS:2025:2", title := "new title",
    full_text := some "Jiný text.", keywords := ["c"] }

theorem save_get_roundtrip_witness :
    get_decision (save_decision initState roundtripFirst 0)
        roundtripFirst.ecli = some roundtripFirst
    ∧ get_decision
        (save_decision (save_decision initState roundtripFirst 0)
          roundtripSecond 1)
        roundtripFirst.ecli = some roundtripSecond :=
  save_get_roundtrip initState roundtripFirst roundtripSecond 0 1
    (by decide) (by decide) (by decide) (by decide) (by decide) (by decide)
    (by decide)

def upsertFirst : Decision :=
  { ecli := "ECLI:CZ:NSS:2025:3", title := "T1", full_text := some "starý text" }

def upsertSecond : Decision :=
  { ecli := "ECLI:CZ:NSS:2025:3", title := "T2", full_text := some "nový text" }

/-- Claim C2 (code-bug evidence): after upserting the same identifier twice
the `decisions` table holds a single row (title `T2`) while the FTS index
holds two entries (titles `T1` and `T2`) — the entry for the row deleted by
`INSERT OR REPLACE` survives, because the REPLACE-internal delete fires no
delete trigger under SQLite's default `recursive_triggers = off`, so the
index diverges from the store. -/
theorem fts_index_diverges_on_upsert :
    ((save_decision (save_decision initState upsertFirst 0) upsertSecond 1).rows.map
        (fun r => r.title) = ["T2"])
    ∧ ((save_decision (save_decision initState upsertFirst 0) upsertSecond 1).fts.map
        (fun f => f.title) = ["T1", "T2"]) := by decide

/-! ## download_nss.py : `NSSDownloader`

Filesystem and network effects are explicit: `DLEnv.fileExists` is the
result of `pdf_path.exists()` and `DLEnv.responses` gives, per attempt,
either a raised `requests.RequestException` (connection error or
`raise_for_status`, modelled as `failure`) or a delivered response with
its Content-Type header and body bytes; a missing list entry models a
raised exception.  `DLResult` records the returned value together with
the observable effects: number of HTTP requests issued, the sequence of
`time.sleep` delays, and the bytes written to the PDF path. -/

inductive HttpAttempt where
  | failure
  | success (contentType : String) (content : List Nat)
deriving DecidableEq

structure DLEnv where
  fileExists : Bool
  responses : List HttpAttempt
deriving DecidableEq

structure DLResult where
  result : Option Decision
  netCalls : Nat
  delays : List Nat
  written : Option (List Nat)
deriving DecidableEq

/-- `decision.ecli.replace(':', '_').replace('/', '_')` (download_nss.py:93). -/
def safeEcli (e : String) : String :=
  String.mk (pyReplaceChar '/' '_' (pyReplaceChar ':' '_' e.data))

/-- `PDF_STORAGE_PATH / f"{safe_ecli}.pdf"` (download_nss.py:94-95). -/
def pdfPathFor (e : String) : String :=
  PDF_STORAGE_PATH ++ "/" ++ safeEcli e ++ ".pdf"

/-- The retry loop of `_download_single` (download_nss.py:104-134), running
attempts `attempt, attempt+1, ...` while `fuel` attempts remain
(`fuel = MAX_RETRIES - attempt + 1` at every call). -/
def dlAttempt (d : Decision) (pdfPath : String) :
    Nat → Nat → List HttpAttempt → DLResult
  | _, 0, _ => ⟨none, 0, [], none⟩
  | attempt, fuel + 1, resps =>
    match resps.headD HttpAttempt.failure with
    | HttpAttempt.success ct content =>
      if pyIn "pdf" (pyLower ct) = false ∧ content.length < 1000 then
        ⟨none, 1, [], none⟩
      else
        ⟨some { d with pdf_path := some pdfPath }, 1, [], some content⟩
    | HttpAttempt.failure =>
      if attempt < MAX_RETRIES then
        let r := dlAttempt d pdfPath (attempt + 1) fuel resps.tail
        ⟨r.result, r.netCalls + 1, RETRY_DELAY * attempt :: r.delays, r.written⟩
      else
        ⟨none, 1, [], none⟩

/-- Model of `NSSDownloader._download_single` (download_nss.py:78-134). -/
def download_single (d : Decision) (env : DLEnv) : DLResult :=
  match d.url with
  | none => ⟨none, 0, [], none⟩
  | some _ =>
    if env.fileExists then
      ⟨some { d with pdf_path := some (pdfPathFor d.ecli) }, 0, [], none⟩
    else
      dlAttempt d (pdfPathFor d.ecli) 1 MAX_RETRIES env.responses

/-- Model of `NSSDownloader.download_decisions` (download_nss.py:38-76).
`as_completed` yields futures in a nondeterministic completion order; the
returned list's membership and the failure counter are order-independent,
so the model processes submission order. -/
def download_decisions : List (Decision × DLEnv) → List Decision × Nat
  | [] => ([], 0)
  | p :: rest =>
    let tailRes := download_decisions rest
    match (download_single p.1 p.2).result with
    | some u =>
      if u.pdf_path.isSome then (u :: tailRes.1, tailRes.2)
      else (tailRes.1, tailRes.2 + 1)
    | none => (tailRes.1, tailRes.2 + 1)

/-- A record lacking a source URL, whose artifact nevertheless exists. -/
def urlLessDecision : Decision := { ecli := "ECLI:CZ:NSS:2025:9", title := "T" }

def existingFileEnv : DLEnv := { fileExists := true, responses := [] }

/-- Claim C6 counterexample: a record whose artifact already exists on disk
but which has no URL is returned as `None` by `_download_single`
(download_nss.py:88-90 runs before the existence check), so the download
stage does not return it with the artifact path set, contradicting the
claim for url-less records. -/
theorem download_skip_counterexample :
    existingFileEnv.fileExists = true
    ∧ (download_single urlLessDecision existingFileEnv).result = none := by
  decide

/-- Claim C6 (amended): for every record that has a source URL and whose
local artifact already exists on disk, `_download_single` performs zero
network calls, sleeps never, writes nothing, and returns the record
unchanged except that `pdf_path` is set to the existing artifact's path. -/
theorem download_single_skips_existing (d : Decision) (env : DLEnv) (u : String)
    (hu : d.url = some u) (hf : env.fileExists = true) :
    download_single d env
      = ⟨some { d with pdf_path := some (pdfPathFor d.ecli) }, 0, [], none⟩ := by
  simp [download_single, hu, hf]

def idempotentDecision : Decision :=
  { ecli := "ECLI:CZ:NSS:2025:4", title := "T",
    url := some "https://vyhledavac.nssoud.cz/x" }

theorem download_single_skips_existing_witness :
    download_single idempotentDecision existingFileEnv
      = ⟨some { idempotentDecision with
                  pdf_path := some (pdfPathFor idempotentDecision.ecli) },
         0, [], none⟩ :=
  download_single_skips_existing idempotentDecision existingFileEnv
    "https://vyhledavac.nssoud.cz/x" rfl rfl

/-- Claim C7: a response delivered on any attempt is accepted — the record
is returned with `pdf_path` set and the body written to disk — iff its
Content-Type contains "pdf" (case-insensitively) or its payload is at
least 1000 bytes; a response failing both tests makes `_download_single`
return `None` immediately with nothing written (download_nss.py:113-121). -/
theorem response_acceptance (d : Decision) (pdfPath : String)
    (attempt fuel : Nat) (ct : String) (content : List Nat)
    (rest : List HttpAttempt) :
    dlAttempt d pdfPath attempt (fuel + 1) (HttpAttempt.success ct content :: rest)
      = if pyIn "pdf" (pyLower ct) = true ∨ 1000 ≤ content.length then
          ⟨some { d with pdf_path := some pdfPath }, 1, [], some content⟩
        else ⟨none, 1, [], none⟩ := by
  rw [dlAttempt]
  simp only [List.headD_cons]
  by_cases hp : pyIn "pdf" (pyLower ct) = true
  · rw [if_neg (by simp [hp]), if_pos (Or.inl hp)]
  · have hp' : pyIn "pdf" (pyLower ct) = false := by simpa using hp
    by_cases hl : content.length < 1000
    · rw [if_pos ⟨hp', hl⟩, if_neg (by
        rintro (h1 | h2)
        · exact hp h1
        · omega)]
    · rw [if_neg (fun h => hl h.2), if_pos (Or.inr (by omega))]

theorem dlAttempt_all_fail (d : Decision) (p : String) :
    ∀ fuel attempt resps, (∀ r ∈ resps, r = HttpAttempt.failure) →
      attempt + fuel = MAX_RETRIES + 1 →
      dlAttempt d p attempt fuel resps
        = ⟨none, fuel,
           (List.range' attempt (fuel - 1)).map (fun n => RETRY_DELAY * n), none⟩
  | 0, attempt, resps, _, _ => by simp [dlAttempt]
  | fuel + 1, attempt, resps, hr, hsum => by
    have hhead : resps.headD HttpAttempt.failure = HttpAttempt.failure := by
      cases resps with
      | nil => rfl
      | cons a t => exact hr a (by simp)
    rw [dlAttempt, hhead]
    by_cases hlt : attempt < MAX_RETRIES
    · rw [if_pos hlt, dlAttempt_all_fail d p fuel (attempt + 1) resps.tail
        (fun r hrm => hr r (List.mem_of_mem_tail hrm)) (by omega)]
      have h2 : (fuel + 1) - 1 = (fuel - 1) + 1 := by omega
      rw [h2, List.range'_succ attempt (fuel - 1) 1, List.map_cons]
    · rw [if_neg hlt]
      have h0 : fuel = 0 := by omega
      subst h0
      simp

theorem download_decisions_count :
    ∀ pairs : List (Decision × DLEnv),
      (download_decisions pairs).1.length + (download_decisions pairs).2
        = pairs.length
  | [] => rfl
  | p :: rest => by
    have ih := download_decisions_count rest
    rcases hres : (download_single p.1 p.2).result with _ | u
    · simp only [download_decisions, hres, List.length_cons]
      omega
    · simp only [download_decisions, hres, List.length_cons]
      by_cases hp : u.pdf_path.isSome <;> simp [hp] <;> omega

/-- Claim C8: when every one of the `MAX_RETRIES = 3` attempts fails,
`_download_single` returns `None` after exactly 3 requests, the record is
absent from the list returned by `download_decisions` and the shared
failure counter gains exactly 1; in general, output length plus failure
count equals the number of input records. -/
theorem download_all_attempts_fail (d : Decision) (env : DLEnv) (u : String)
    (hu : d.url = some u) (hf : env.fileExists = false)
    (hr : ∀ r ∈ env.responses, r = HttpAttempt.failure) :
    (download_single d env).result = none
    ∧ (download_single d env).netCalls = MAX_RETRIES
    ∧ (∀ pairs : List (Decision × DLEnv),
        (download_decisions pairs).1.length + (download_decisions pairs).2
          = pairs.length)
    ∧ download_decisions [(d, env)] = ([], 1) := by
  have hds : download_single d env
      = ⟨none, MAX_RETRIES,
         (List.range' 1 (MAX_RETRIES - 1)).map (fun n => RETRY_DELAY * n), none⟩ := by
    unfold download_single
    rw [hu]
    rw [if_neg (by simp [hf])]
    exact dlAttempt_all_fail d (pdfPathFor d.ecli) MAX_RETRIES 1 env.responses hr
      (by omega)
  refine ⟨by rw [hds], by rw [hds], download_decisions_count, ?_⟩
  simp [download_decisions, hds]

def failingDecision : Decision :=
  { ecli := "ECLI:CZ:NSS:2025:5", title := "T", url := some "https://x" }

def allFailEnv : DLEnv :=
  { fileExists := false,
    responses := [HttpAttempt.failure, HttpAttempt.failure, HttpAttempt.failure] }

theorem download_all_attempts_fail_witness :
    (download_single failingDecision allFailEnv).result = none
    ∧ (download_single failingDecision allFailEnv).netCalls = MAX_RETRIES
    ∧ (∀ pairs : List (Decision × DLEnv),
        (download_decisions pairs).1.length + (download_decisions pairs).2
          = pairs.length)
    ∧ download_decisions [(failingDecision, allFailEnv)] = ([], 1) :=
  download_all_attempts_fail failingDecision allFailEnv "https://x" rfl rfl
    (by decide)

theorem dlAttempt_delays_linear (d : Decision) (p : String) :
    ∀ fuel attempt resps,
      (dlAttempt d p attempt fuel resps).delays
        = (List.range' attempt
            ((dlAttempt d p attempt fuel resps).delays.length)).map
            (fun n => RETRY_DELAY * n)
  | 0, attempt, resps => by simp [dlAttempt]
  | fuel + 1, attempt, resps => by
    cases h : resps.headD HttpAttempt.failure with
    | success ct content =>
      rw [dlAttempt, h]
      split
      · split <;> simp
      · simp_all
    | failure =>
      rw [dlAttempt, h]
      by_cases hlt : attempt < MAX_RETRIES
      · rw [if_pos hlt]
        have ih := dlAttempt_delays_linear d p fuel (attempt + 1) resps.tail
        show RETRY_DELAY * attempt :: (dlAttempt d p (attempt + 1) fuel resps.tail).delays
          = (List.range' attempt
              ((RETRY_DELAY * attempt ::
                (dlAttempt d p (attempt + 1) fuel resps.tail).delays).length)).map
              (fun n => RETRY_DELAY * n)
        rw [List.length_cons, List.range'_succ, List.map_cons]
        exact congrArg _ ih
      · rw [if_neg hlt]
        simp

/-- Claim C9: the delays slept by `_download_single` between attempts form
the sequence attempt-number × RETRY_DELAY starting at attempt 1 — linear,
hence strictly monotonically increasing (download_nss.py:129). -/
theorem retry_delays_linear (d : Decision) (env : DLEnv) (u : String)
    (hu : d.url = some u) (hf : env.fileExists = false) :
    (download_single d env).delays
      = (List.range' 1 ((download_single d env).delays.length)).map
          (fun n => RETRY_DELAY * n)
    ∧ ((download_single d env).delays).Pairwise (· < ·) := by
  have h1 : download_single d env
      = dlAttempt d (pdfPathFor d.ecli) 1 MAX_RETRIES env.responses := by
    unfold download_single
    rw [hu]
    rw [if_neg (by simp [hf])]
  rw [h1]
  refine ⟨dlAttempt_delays_linear d (pdfPathFor d.ecli) MAX_RETRIES 1
    env.responses, ?_⟩
  rw [dlAttempt_delays_linear d (pdfPathFor d.ecli) MAX_RETRIES 1 env.responses]
  rw [List.pairwise_map]
  apply List.Pairwise.imp ?_ (List.pairwise_lt_range' 1 _)
  intro a b hab
  have h0 : (0 : Nat) < RETRY_DELAY := by decide
  exact (Nat.mul_lt_mul_left h0).mpr hab

theorem retry_delays_linear_witness :
    (download_single failingDecision allFailEnv).delays
      = (List.range' 1 ((download_single failingDecision allFailEnv).delays.length)).map
          (fun n => RETRY_DELAY * n)
    ∧ ((download_single failingDecision allFailEnv).delays).Pairwise (· < ·) :=
  retry_delays_linear failingDecision allFailEnv "https://x" rfl rfl

/-! ## convert_ocr.py : `PDFOCRConverter._convert_single`

Effects are explicit in `OcrEnv`: existence checks of the OCR output and
the input PDF, the result of direct text extraction (`PyPDF2`), the text
pytesseract returns per rendered page, and the input file's bytes.
`OcrResult` records the returned value, the number of
`pytesseract.image_to_string` calls (the recognition-call counter), and
what was written to the searchable-artifact location. -/

structure OcrEnv where
  ocrExists : Bool
  pdfExists : Bool
  extractedText : String
  ocrFileText : String
  pageTexts : List String
  originalBytes : List Nat
deriving DecidableEq

inductive OcrArtifact where
  | copied (bytes : List Nat)
  | reconstructed (pages : Nat)
deriving DecidableEq

structure OcrResult where
  result : Option Decision
  ocrCalls : Nat
  written : Option OcrArtifact
deriving DecidableEq

/-- `PDF_OCR_PATH / f"{safe_ecli}_ocr.pdf"` (convert_ocr.py:103-105). -/
def ocrPathFor (e : String) : String :=
  PDF_OCR_PATH ++ "/" ++ safeEcli e ++ "_ocr.pdf"

/-- Model of Python `sep.join(parts)` for a string separator. -/
def pyJoinStr (sep : String) : List String → String
  | [] => ""
  | [g] => g
  | g :: gs => g ++ sep ++ pyJoinStr sep gs

/-- Model of `PDFOCRConverter._convert_single` (convert_ocr.py:83-159). -/
def convert_single (d : Decision) (env : OcrEnv) : OcrResult :=
  match d.pdf_path with
  | none => ⟨none, 0, none⟩
  | some _ =>
    if env.pdfExists = false then ⟨none, 0, none⟩
    else if env.ocrExists then
      ⟨some { d with ocr_pdf_path := some (ocrPathFor d.ecli),
                     full_text := some env.ocrFileText }, 0, none⟩
    else if env.extractedText ≠ "" ∧ 100 < pyLen (pyStrip env.extractedText) then
      ⟨some { d with ocr_pdf_path := some (ocrPathFor d.ecli),
                     full_text := some env.extractedText },
       0, some (OcrArtifact.copied env.originalBytes)⟩
    else
      ⟨some { d with ocr_pdf_path := some (ocrPathFor d.ecli),
                     full_text := some
                       (pyJoinStr "\n\n--- NOVÁ STRÁNKA ---\n\n" env.pageTexts) },
       env.pageTexts.length,
       some (OcrArtifact.reconstructed env.pageTexts.length)⟩

def hundredCharText : String := String.mk (List.replicate 100 'a')

def boundaryDecision : Decision :=
  { ecli := "ECLI:CZ:NSS:2025:6", title := "T",
    pdf_path := some "data/pdf/x.pdf" }

def boundaryEnv : OcrEnv :=
  { ocrExists := false, pdfExists := true, extractedText := hundredCharText,
    ocrFileText := "", pageTexts := ["page one text"], originalBytes := [1, 2, 3] }

/-- Claim C4 counterexample: a document whose artifact contains exactly 100
characters of trimmed extractable text (hence at least 100) still takes
the recognition path — `_convert_single` requires strictly more than 100
characters (convert_ocr.py:118), so one OCR call per page is made and no
verbatim copy happens. -/
theorem ocr_boundary_counterexample :
    100 ≤ pyLen (pyStrip boundaryEnv.extractedText)
    ∧ (convert_single boundaryDecision boundaryEnv).ocrCalls ≠ 0
    ∧ (convert_single boundaryDecision boundaryEnv).written
        ≠ some (OcrArtifact.copied boundaryEnv.originalBytes) := by decide

/-- Claim C4 (amended): for every document with an original artifact on
disk, no pre-existing searchable artifact, and **strictly more than** 100
characters of trimmed extractable text, `_convert_single` performs zero
recognition calls: it copies the original artifact verbatim to the
searchable-artifact location, sets full_text to the extracted text, and
stops. -/
theorem text_pipeline_skips_ocr (d : Decision) (env : OcrEnv) (p : String)
    (hp : d.pdf_path = some p) (hex : env.pdfExists = true)
    (hocr : env.ocrExists = false)
    (hlen : 100 < pyLen (pyStrip env.extractedText)) :
    convert_single d env
      = ⟨some { d with ocr_pdf_path := some (ocrPathFor d.ecli),
                       full_text := some env.extractedText },
         0, some (OcrArtifact.copied env.originalBytes)⟩ := by
  have hne : env.extractedText ≠ "" := by
    intro h0
    rw [h0] at hlen
    have hz : pyLen (pyStrip "") = 0 := rfl
    omega
  unfold convert_single
  rw [hp]
  rw [if_neg (by simp [hex]), if_neg (by simp [hocr]), if_pos ⟨hne, hlen⟩]

def longText : String := String.mk (List.replicate 101 'a')

def okTextDecision : Decision :=
  { ecli := "ECLI:CZ:NSS:2025:7", title := "T",
    pdf_path := some "data/pdf/y.pdf" }

def longTextEnv : OcrEnv :=
  { ocrExists := false, pdfExists := true, extractedText := longText,
    ocrFileText := "", pageTexts := [], originalBytes := [4, 5] }

theorem text_pipeline_skips_ocr_witness :
    convert_single okTextDecision longTextEnv
      = ⟨some { okTextDecision with
                  ocr_pdf_path := some (ocrPathFor okTextDecision.ecli),
                  full_text := some longTextEnv.extractedText },
         0, some (OcrArtifact.copied longTextEnv.originalBytes)⟩ :=
  text_pipeline_skips_ocr okTextDecision longTextEnv "data/pdf/y.pdf" rfl rfl
    rfl (by decide)

/-! ## search_nss.py : `NSSSearcher` bulk-export search

An xlsx data row carries the cell values `_filter_xlsx_data` reads, after
the `str(cell.value or '')` conversions the code applies; the decision
date cell is given already through `_parse_date` (datetime abstracted as
in `Decision`).  The xlsx download and the Selenium driver are
environmental: `rows` is the sheet content, `texts` the text Selenium
would find per result index. -/

structure XlsxRow where
  typ_veci : String
  ucastnici : String
  spisova_znacka : String
  datum : Option Nat
  soudce : String
  typ_rizeni : String
  typ_rozhodnuti : String
deriving DecidableEq

/-- The NSS xlsx identifier (search_nss.py:157): built from the case
number only. -/
def nssXlsxEcli (spisova_znacka : String) : String :=
  "CZ:NSS:" ++ String.mk (pyReplaceChar ' ' '-' spisova_znacka.data)

/-- The `Decision` built for a matched row (search_nss.py:156-170). -/
def xlsxDecision (keywords : List String) (r : XlsxRow) : Decision :=
  { ecli := nssXlsxEcli r.spisova_znacka,
    title := if r.typ_veci ≠ "" then r.typ_veci else "Bez názvu",
    date := r.datum,
    url := some ("https://vyhledavac.nssoud.cz/?spisova_znacka="
      ++ r.spisova_znacka),
    keywords := keywords,
    metadata := [("spisova_znacka", r.spisova_znacka), ("soudce", r.soudce),
      ("typ_rizeni", r.typ_rizeni), ("typ_rozhodnuti", r.typ_rozhodnuti)] }

/-- The keyword test of `_filter_xlsx_data` (search_nss.py:146-154): some
single word of some keyword occurs as a case-insensitive substring of
`"{typ_veci} {ucastnici}"`. -/
def rowMatches (keywords : List String) (r : XlsxRow) : Bool :=
  (keywords.flatMap (fun kw => pySplitWhitespace (pyLower kw))).any
    (fun w => pyIn w (pyLower (r.typ_veci ++ " " ++ r.ucastnici)))

/-- The row loop of `_filter_xlsx_data` (search_nss.py:137-172): stop once
`max_results` decisions are collected. -/
def filterGo (keywords : List String) (maxResults : Nat) :
    List XlsxRow → List Decision → List Decision
  | [], acc => acc
  | r :: rs, acc =>
    if maxResults ≤ acc.length then acc
    else if rowMatches keywords r then
      filterGo keywords maxResults rs (acc ++ [xlsxDecision keywords r])
    else filterGo keywords maxResults rs acc

/-- Model of `NSSSearcher._filter_xlsx_data` (search_nss.py:124-175);
`iter_rows(min_row=2, max_row=min(100000, ...))` visits at most the first
99999 data rows. -/
def filter_xlsx_data (rows : List XlsxRow) (keywords : List String)
    (maxResults : Nat) : List Decision :=
  filterGo keywords maxResults (rows.take 99999) []

/-- Model of `NSSSearcher._enrich_with_selenium` (search_nss.py:188-217):
every decision is appended, with `full_text` set when a text was found. -/
def enrich_with_selenium (texts : Nat → Option String)
    (ds : List Decision) : List Decision :=
  ds.mapIdx (fun i d =>
    match texts i with
    | some t => { d with full_text := some t }
    | none => d)

/-- Model of `NSSSearcher.search_decisions` (search_nss.py:70-101). -/
def search_decisions (rows : List XlsxRow) (keywords : List String)
    (maxResults : Nat) (useSelenium : Bool) (texts : Nat → Option String) :
    List Decision :=
  let decisions := filter_xlsx_data rows keywords maxResults
  if useSelenium = true ∧ decisions ≠ [] then
    enrich_with_selenium texts decisions
  else decisions

theorem filterGo_length_le (keywords : List String) (maxResults : Nat) :
    ∀ rows acc, acc.length ≤ maxResults →
      (filterGo keywords maxResults rows acc).length ≤ maxResults
  | [], _, h => h
  | r :: rs, acc, h => by
    rw [filterGo]
    by_cases hge : maxResults ≤ acc.length
    · rw [if_pos hge]
      exact h
    · rw [if_neg hge]
      by_cases hm : rowMatches keywords r = true
      · rw [if_pos hm]
        exact filterGo_length_le keywords maxResults rs _
          (by rw [List.length_append]; simp; omega)
      · rw [if_neg hm]
        exact filterGo_length_le keywords maxResults rs acc h

theorem filterGo_zero (keywords : List String) :
    ∀ rows : List XlsxRow, filterGo keywords 0 rows [] = []
  | [] => rfl
  | _ :: _ => by rw [filterGo, if_pos (by simp)]

theorem enrich_length (texts : Nat → Option String) (ds : List Decision) :
    (enrich_with_selenium texts ds).length = ds.length := by
  simp [enrich_with_selenium]

/-- Claim C10: for every keyword list and every `max_results`, the
bulk-export search returns at most `max_results` records, and with
`max_results = 0` it returns the empty list — both for
`_filter_xlsx_data` and for `search_decisions` built on it. -/
theorem search_results_bounded (rows : List XlsxRow) (keywords : List String)
    (maxResults : Nat) (useSelenium : Bool) (texts : Nat → Option String) :
    (filter_xlsx_data rows keywords maxResults).length ≤ maxResults
    ∧ filter_xlsx_data rows keywords 0 = []
    ∧ (search_decisions rows keywords maxResults useSelenium texts).length
        ≤ maxResults
    ∧ search_decisions rows keywords 0 useSelenium texts = [] := by
  have hb := filterGo_length_le keywords maxResults (rows.take 99999) []
    (by simp)
  have h0 : filter_xlsx_data rows keywords 0 = [] :=
    filterGo_zero keywords (rows.take 99999)
  refine ⟨hb, h0, ?_, ?_⟩
  · rw [search_decisions]
    by_cases hc : useSelenium = true ∧ filter_xlsx_data rows keywords maxResults ≠ []
    · rw [if_pos hc, enrich_length]
      exact hb
    · rw [if_neg hc]
      exact hb
  · rw [search_decisions, if_neg (fun hc => hc.2 h0)]
    exact h0

/-! ## Identifier synthesis fallbacks (claim C5)

`nssXlsxEcli` above is the xlsx adapter's synthesized identifier —
a function of the case number alone.  The two other cited fallbacks
incorporate the wall clock. -/

/-- The fallback identifier minted by `NSSSbirkaDownloader.search_and_download`
(downloader.py:123) from `int(time.time())` and the 1-based result index. -/
def sbirkaEcli (unixTime : Nat) (i : Nat) : String :=
  "CZ:NSS:SBIRKA:" ++ toString unixTime ++ ":" ++ toString i

/-- The fallback identifier minted by `RegionalCourtSearcher._search_via_selenium`
(regional_courts.py:281) from a word of the court name and
`datetime.now().year`. -/
def regionalSeleniumEcli (courtWord : String) (year : Nat) : String :=
  "CZ:" ++ pyUpper courtWord ++ ":" ++ toString year ++ ":TEMP"

/-- Claim C5 (code-bug evidence): the synthesized fallback identifier is
**not** wall-clock independent — two runs over identical source data at
Unix times 1760227200 and 1760227201 give the same document (result
index 1) different sbirka identifiers, and two runs in consecutive years
give a regional-court document different identifiers; only the xlsx
adapter's `nssXlsxEcli` is a function of stable source fields. -/
theorem fallback_identifier_time_dependent :
    sbirkaEcli 1760227200 1 ≠ sbirkaEcli 1760227201 1
    ∧ regionalSeleniumEcli "soud" 2025 ≠ regionalSeleniumEcli "soud" 2026 := by
  refine ⟨by decide, by decide⟩
